import Mathlib

/-!
Shallow embedding of the matching/ranking pipeline of the kong-email-creator
repository, together with proofs of the testable properties stated in its
specification.

The embedded code comes from three source files:

* `match_candidates_to_blogs.py` — the Deduplicating Retriever front end
  (`find_blogs_for_candidate`) and the Hybrid Reranker
  (`select_best_blogs_with_llm`);
* `app.py` — the Two-Stage Eligibility Matcher (`match_candidate_to_jobs`)
  and its cosine-similarity Stage-1 gate;
* `app_old.py` — the two-pass Diversity Filter inlined in `generate_email`
  and `update_context`.

External effects are modelled as explicit oracle parameters:

* the Supabase similarity RPC becomes a function argument
  (`gwDedup` / `gwAll`) from a query embedding, threshold and cap to a list
  of matches;
* the OpenAI chat call of the reranker is collapsed, together with the
  markdown stripping and `json.loads` of its reply, into one argument of
  type `Option (List Int)`: `none` is any path that raises inside the
  `try` block (HTTP error, unparsable reply, a reply that is not a list of
  integers — Python indexing with a non-integer raises and lands in the
  same `except`), `some l` is a successfully parsed list of integers;
* the per-job embedding call becomes `jobEmbed : Job → List ℚ` and the
  numeric cosine kernel of Stage 1 becomes `sim : List ℚ → List ℚ → ℚ`
  (its exact-arithmetic value is treated separately by `cosineSim` over ℝ);
* `evaluate_job_match_with_llm` becomes `evalLLM : Job → ℚ → Option Judgment`,
  where `none` is its `except` branch (`return None` on any error/timeout).

Vector components are embedded as rationals: the similarity-independent
control flow (truthiness tests, threshold filters, sorting, caps) is exact,
and the one genuinely real-number fact (the cosine round trip) is proved
over ℝ.
-/

namespace KongEmail

/-- One deduplicated blog match as returned by the
`search_top_blogs_for_candidate` RPC and consumed by the reranker and the
diversity filter: the fields of the Python dict that the embedded code
reads. -/
structure Blog where
  blog_title : String
  blog_url : String
  blog_author : String
  max_similarity : ℚ
  best_matching_chunk : String
deriving DecidableEq, Repr

instance : Inhabited Blog := ⟨⟨"", "", "", 0, ""⟩⟩

/-- Python truthiness of an optional embedding field: `None` and the empty
list are falsy, a non-empty list is truthy (`if not prof_embedding: ...`). -/
def truthy : Option (List ℚ) → Bool
  | none => false
  | some v => !v.isEmpty

/-- The candidate-profile fields read by the embedded pipeline
(`professional_summary_embedding` and the legacy `embedding` column of
`candidate_profiles`). -/
structure Candidate where
  professional_summary_embedding : Option (List ℚ)
  embedding : Option (List ℚ)
deriving DecidableEq, Repr

/-- `find_blogs_for_candidate` (match_candidates_to_blogs.py, lines 90-154).
`cand?` is the result of `get_candidate_by_id` (`none` when the candidate is
missing); `gwDedup`/`gwAll` are the two Supabase RPCs
(`search_top_blogs_for_candidate` / `search_blogs_for_candidate`), taking
the query embedding, `match_threshold` and `match_count`. The source picks
the professional-summary embedding, falls back to the legacy `embedding`
field only when that legacy field is itself truthy, returns `[]` when no
truthy embedding remains (logging an error — nothing else reaches the
caller), and otherwise returns the RPC result (its `else` branch for an
empty RPC reply also returns `[]`). -/
def find_blogs_for_candidate (cand? : Option Candidate)
    (gwDedup gwAll : List ℚ → ℚ → Nat → List Blog)
    (match_threshold : ℚ) (match_count : Nat) (deduplicate : Bool) : List Blog :=
  match cand? with
  | none => []
  | some candidate =>
    let prof0 := candidate.professional_summary_embedding
    let prof_embedding :=
      if !truthy prof0 && truthy candidate.embedding then candidate.embedding else prof0
    if !truthy prof_embedding then []
    else
      let gw := if deduplicate then gwDedup else gwAll
      gw (prof_embedding.getD []) match_threshold match_count

/-- The index-validation comprehension of `select_best_blogs_with_llm`
(match_candidates_to_blogs.py, line 229):
`[blogs[idx - 1] for idx in selected_indices if 0 < idx <= len(blogs)]`.
Each index occurrence that passes the range check contributes one output
entry; nothing deduplicates repeated indices. -/
def validSelection (blogs : List Blog) (selected_indices : List Int) : List Blog :=
  selected_indices.filterMap fun idx =>
    if 0 < idx ∧ idx ≤ (blogs.length : Int) then blogs[(idx - 1).toNat]? else none

/-- `select_best_blogs_with_llm` (match_candidates_to_blogs.py, lines
156-238). `llmOutcome` stands for the LLM call plus reply parsing: `none`
is any exception inside the `try` (gateway error or unparsable reply),
`some l` a parsed list of integers. The source short-circuits when
`not blogs or len(blogs) <= num_to_select` (for `num_to_select : Nat` the
empty case is subsumed by the length test), maps validated indices back to
blogs, and falls back to `blogs[:num_to_select]` when the validated
selection is empty or an exception was raised. -/
def select_best_blogs_with_llm (blogs : List Blog) (llmOutcome : Option (List Int))
    (num_to_select : Nat) : List Blog :=
  if blogs.length ≤ num_to_select then blogs
  else
    match llmOutcome with
    | none => blogs.take num_to_select
    | some selected_indices =>
      let selected_blogs := validSelection blogs selected_indices
      if selected_blogs.isEmpty then blogs.take num_to_select else selected_blogs

/-- The exclusion list of the diversity filter (app_old.py, line 332):
`generic_keywords = ['career', 'team', 'culture', 'life at', 'meet the engineers']`. -/
def generic_keywords : List String :=
  ["career", "team", "culture", "life at", "meet the engineers"]

/-- The first-pass skip test of the diversity filter (app_old.py, lines
338-340): `any(keyword in title_lower for keyword in generic_keywords)`
with `title_lower = blog['blog_title'].lower()`. -/
def isGenericTitle (b : Blog) : Bool :=
  generic_keywords.any fun keyword =>
    decide (keyword.data <:+: b.blog_title.toLower.data)

/-- First pass of the diversity filter (app_old.py, lines 334-341): walk
the matches in order, appending every blog whose lowercased title contains
no generic keyword, stopping as soon as the accumulator reaches the target
count (`if len(top_blogs) >= 3: break`). -/
def passOne (target : Nat) : List Blog → List Blog → List Blog
  | [], acc => acc
  | b :: rest, acc =>
    if target ≤ acc.length then acc
    else if isGenericTitle b then passOne target rest acc
    else passOne target rest (acc ++ [b])

/-- Second pass of the diversity filter (app_old.py, lines 343-348): walk
the matches again in original order, appending every blog not already in
the (growing) accumulator — Python `if blog not in top_blogs`, value
equality — until the target count is reached. -/
def passTwo (target : Nat) : List Blog → List Blog → List Blog
  | [], acc => acc
  | b :: rest, acc =>
    if target ≤ acc.length then acc
    else if b ∈ acc then passTwo target rest acc
    else passTwo target rest (acc ++ [b])

/-- The two-pass diversity filter inlined in `generate_email` (app_old.py,
lines 331-348) and repeated verbatim in `update_context` (lines 501-515),
with the hard-coded target of 3 generalised to a parameter. -/
def filterDiverse (blog_matches : List Blog) (target : Nat) : List Blog :=
  passTwo target blog_matches (passOne target blog_matches [])

/-- A job posting as read by `match_candidate_to_jobs` (app.py): the
`status` column filtered by the `.eq('status', 'active')` query and the
fields that survive into a confirmed match. The descriptive text that
feeds the query-time embedding is not needed here because the embedding
call itself is an oracle (`jobEmbed`). -/
structure Job where
  position : String
  status : String
deriving DecidableEq, Repr

/-- The parsed JSON reply of `evaluate_job_match_with_llm` (app.py, lines
351-375): the fields the matcher reads. A missing `is_match` key is falsy
in Python, so it is embedded as `is_match = false`. -/
structure Judgment where
  is_match : Bool
  confidence : String
  match_score : Int
  reasoning : String
deriving DecidableEq, Repr

/-- One entry of `semantic_candidates` (app.py, lines 458-461): a job that
passed the Stage-1 similarity gate together with its similarity score. -/
structure ScoredJob where
  job : Job
  similarity : ℚ
deriving DecidableEq, Repr

/-- One entry of `confirmed_matches` (app.py, lines 487-496): the job, its
Stage-1 similarity and the full LLM evaluation. -/
structure JobMatch where
  job : Job
  similarity : ℚ
  llm_evaluation : Judgment
deriving DecidableEq, Repr

/-- The internal error of the Stage-1 similarity loop: `np.dot` raises a
`ValueError` when the two 1-D vectors have different lengths. -/
inductive MatchError where
  | dimensionMismatch
deriving DecidableEq, Repr

/-- The embedding-selection prologue of `match_candidate_to_jobs` (app.py,
lines 398-406): take `professional_summary_embedding`, fall back to the
legacy `embedding` field whenever the former is falsy, and give up (the
source returns `[]`) when the result is still falsy. The
string-to-list JSON shim of lines 408-415 is not modelled: embeddings are
lists already. -/
def qualifyingEmbeddingJobs (candidate_profile : Candidate) : Option (List ℚ) :=
  let prof_embedding :=
    if truthy candidate_profile.professional_summary_embedding then
      candidate_profile.professional_summary_embedding
    else candidate_profile.embedding
  if truthy prof_embedding then prof_embedding else none

/-- Stage 1 of `match_candidate_to_jobs` (app.py, lines 430-463): for each
active job, obtain its query-time embedding (`jobEmbed`), compute the
cosine similarity of the profile vector with it (`sim`, the numeric kernel
of line 455 — `np.dot` first raises a `ValueError` when the dimensions
disagree, which aborts the whole loop), and keep the job when
`similarity >= match_threshold`, preserving iteration order. -/
def stage1 (p : List ℚ) (jobEmbed : Job → List ℚ) (sim : List ℚ → List ℚ → ℚ)
    (match_threshold : ℚ) : List Job → Except MatchError (List ScoredJob)
  | [] => .ok []
  | job :: rest =>
    if p.length = (jobEmbed job).length then
      match stage1 p jobEmbed sim match_threshold rest with
      | .ok tail =>
        .ok (if match_threshold ≤ sim p (jobEmbed job) then
              ⟨job, sim p (jobEmbed job)⟩ :: tail
            else tail)
      | .error err => .error err
    else .error .dimensionMismatch

/-- One loop iteration of Stage 2 (app.py, lines 476-502): submit the
scored job to `evaluate_job_match_with_llm`; it yields a confirmed match
exactly when the evaluation is truthy and its `is_match` field is truthy
(`if evaluation and evaluation.get('is_match')`); an evaluation of `None`
(any gateway error or timeout) or a falsy `is_match` contributes
nothing. -/
def confirmOne (evalLLM : Job → ℚ → Option Judgment) (c : ScoredJob) :
    Option JobMatch :=
  match evalLLM c.job c.similarity with
  | some evaluation =>
    if evaluation.is_match then some ⟨c.job, c.similarity, evaluation⟩ else none
  | none => none

/-- Stage 2 of `match_candidate_to_jobs` (app.py, lines 472-502): only the
top-5 slice of the similarity-sorted survivors (`semantic_candidates[:5]`)
is submitted to the Judgment Gateway, in order, keeping the confirmed
ones. -/
def stage2 (evalLLM : Job → ℚ → Option Judgment) (sorted : List ScoredJob) :
    List JobMatch :=
  (sorted.take 5).filterMap (confirmOne evalLLM)

/-- The comparison realised by the Python sort of line 470
(`sort(key=lambda x: x['similarity'], reverse=True)`): descending by
similarity. -/
def simDesc (a b : ScoredJob) : Bool := decide (b.similarity ≤ a.similarity)

/-- Stable insertion of a scored job into a descending-sorted list: the job
goes in front of the first entry whose similarity does not exceed its own,
so equal similarities keep their original relative order — exactly the
stability guarantee of the Python `list.sort` used on line 470. -/
def insertDesc (c : ScoredJob) : List ScoredJob → List ScoredJob
  | [] => [c]
  | d :: rest => if simDesc c d then c :: d :: rest else d :: insertDesc c rest

/-- The stable descending sort of `semantic_candidates` (app.py, line 470,
`semantic_candidates.sort(key=lambda x: x['similarity'], reverse=True)`).
Python's `list.sort` is a stable comparison sort; a stable sort by a total
preorder is extensionally unique, so this structurally recursive stable
insertion sort computes the same list. -/
def sortBySimDesc : List ScoredJob → List ScoredJob
  | [] => []
  | c :: rest => insertDesc c (sortBySimDesc rest)

/-- The core of the `try` block of `match_candidate_to_jobs` (app.py, lines
417-514), from the fetch of active jobs onwards, parametrised by the
already-selected profile embedding (`none` when lines 404-406 bailed out).
The Supabase fetch of active jobs is modelled by filtering `alljobs` on
`status == "active"` (the `.eq('status', 'active')` query); the empty-fetch
and empty-survivor early returns of lines 424-426 and 465-467 are kept,
and the Stage-1 `ValueError` propagates through the `Except` bind. -/
def withEmbedding : Option (List ℚ) → List Job → (Job → List ℚ) →
    (List ℚ → List ℚ → ℚ) → (Job → ℚ → Option Judgment) → ℚ →
    Except MatchError (List JobMatch)
  | none, _, _, _, _, _ => .ok []
  | some p, alljobs, jobEmbed, sim, evalLLM, match_threshold =>
    if (alljobs.filter fun j => j.status == "active").isEmpty then .ok []
    else
      stage1 p jobEmbed sim match_threshold
          (alljobs.filter fun j => j.status == "active") >>=
        fun semantic_candidates =>
          if semantic_candidates.isEmpty then .ok []
          else .ok ((stage2 evalLLM (sortBySimDesc semantic_candidates)).take 2)

/-- The whole `try` body of `match_candidate_to_jobs` (app.py, lines
389-514): resolve the candidate (lines 393-396, `none` = not found, return
`[]`), select the qualifying embedding (lines 398-406) and continue with
`withEmbedding`. -/
def match_inner : Option Candidate → List Job → (Job → List ℚ) →
    (List ℚ → List ℚ → ℚ) → (Job → ℚ → Option Judgment) → ℚ →
    Except MatchError (List JobMatch)
  | none, _, _, _, _, _ => .ok []
  | some candidate_profile, alljobs, jobEmbed, sim, evalLLM, match_threshold =>
    withEmbedding (qualifyingEmbeddingJobs candidate_profile) alljobs jobEmbed sim
      evalLLM match_threshold

/-- The catch-all `except Exception` of app.py lines 516-518: a raised
error is logged and the caller receives `[]`; a normal result is passed
through. -/
def runMatch : Except MatchError (List JobMatch) → List JobMatch
  | .ok l => l
  | .error _ => []

/-- `match_candidate_to_jobs` (app.py, lines 382-518): the `try` body with
its catch-all `except Exception` (lines 516-518), which logs the error and
returns `[]` to the caller — no exception, the dimension mismatch
included, ever escapes the function. -/
def match_candidate_to_jobs (cand? : Option Candidate) (alljobs : List Job)
    (jobEmbed : Job → List ℚ) (sim : List ℚ → List ℚ → ℚ)
    (evalLLM : Job → ℚ → Option Judgment) (match_threshold : ℚ) : List JobMatch :=
  runMatch (match_inner cand? alljobs jobEmbed sim evalLLM match_threshold)

/-- Dot product of two real vectors, the `np.dot(prof_vec, job_vec)` of
app.py line 455 over exact arithmetic (zip semantics agrees with numpy on
equal-length vectors, the only case the cosine claim concerns). -/
def dotl (a b : List ℝ) : ℝ := (List.zipWith (· * ·) a b).sum

/-- The cosine-similarity formula of app.py line 455 over exact real
arithmetic: `np.dot(a, b) / (np.linalg.norm(a) * np.linalg.norm(b))`, with
`np.linalg.norm v = sqrt (dot v v)`. -/
noncomputable def cosineSim (a b : List ℝ) : ℝ :=
  dotl a b / (Real.sqrt (dotl a a) * Real.sqrt (dotl b b))

/-! Concrete fixtures used to instantiate the theorems below on explicit
inputs (witnesses and counterexamples). -/

/-- A distinct blog per position: the blog at 1-indexed position `i + 1` of
the scenario pool. -/
def mkB (i : Nat) : Blog := ⟨toString i, "", "", (i : ℚ), ""⟩

/-- The 30-document pool of the reranker scenario. -/
def pool30 : List Blog := (List.range 30).map mkB

/-- A blog whose lowercased title contains the excluded keyword
`career`. -/
def gBlog : Blog := ⟨"Career tips and tricks", "", "", 1, ""⟩

/-- A similarity gateway that always returns one match. -/
def gwPin : List ℚ → ℚ → Nat → List Blog := fun _ _ _ => [gBlog]

/-- A similarity gateway that always returns no matches. -/
def gwNone : List ℚ → ℚ → Nat → List Blog := fun _ _ _ => []

/-- Job fixtures: four active postings and one inactive one. -/
def jobA : Job := ⟨"A", "active"⟩

def jobB : Job := ⟨"B", "active"⟩

def jobC : Job := ⟨"C", "active"⟩

def jobD : Job := ⟨"D", "active"⟩

def jobZ : Job := ⟨"Z", "closed"⟩

def jobsC : List Job := [jobA, jobB, jobC, jobD, jobZ]

/-- A concrete embedding oracle for the job fixtures. -/
def jobEmbedC : Job → List ℚ :=
  fun j =>
    if j.position = "A" then [9/10]
    else if j.position = "B" then [8/10]
    else if j.position = "C" then [3/10]
    else [5/10]

/-- A computable similarity kernel for concrete instantiations: the dot
product over ℚ (any kernel may stand in for the cosine, whose exact-real
value is treated by `cosineSim`). -/
def dotQ (a b : List ℚ) : ℚ := (List.zipWith (· * ·) a b).sum

/-- A concrete judgment oracle: accepts `A` and `D`, rejects `B`, errors on
`C`. -/
def evalC : Job → ℚ → Option Judgment :=
  fun j _ =>
    if j.position = "B" then some ⟨false, "low", 20, "mismatch"⟩
    else if j.position = "C" then none
    else some ⟨true, "high", 90, "fit"⟩

/-- The candidate fixture for the job-matching scenarios: a one-dimensional
professional-summary embedding. -/
def candJ : Candidate := ⟨some [1], none⟩

/-- The confirmed match produced for `jobA` in the fixture scenario. -/
def matchA : JobMatch := ⟨jobA, 9/10, ⟨true, "high", 90, "fit"⟩⟩

/-- The confirmed match produced for `jobD` in the fixture scenario. -/
def matchD : JobMatch := ⟨jobD, 5/10, ⟨true, "high", 90, "fit"⟩⟩

/-- The Stage-1 survivors of the fixture scenario, in iteration order. -/
def survC : List ScoredJob := [⟨jobA, 9/10⟩, ⟨jobB, 8/10⟩, ⟨jobD, 5/10⟩]

/-- An embedding oracle of the wrong dimensionality for the
dimension-mismatch scenario. -/
def jobEmbedBad : Job → List ℚ := fun _ => [1, 0]

/-- Diversity-filter fixtures: three specific titles and one generic
one. -/
def dKuma : Blog := ⟨"Kuma deep dive", "", "", 9/10, ""⟩

def dLife : Blog := ⟨"Life at Kong!", "", "", 8/10, ""⟩

def dApi : Blog := ⟨"API gateway patterns", "", "", 7/10, ""⟩

def dBlogs : List Blog := [dKuma, dLife, dApi]

/-! Helper lemmas about the Hybrid Reranker. -/

lemma mem_validSelection {blogs : List Blog} {l : List Int} {b : Blog}
    (hb : b ∈ validSelection blogs l) : b ∈ blogs := by
  unfold validSelection at hb
  rw [List.mem_filterMap] at hb
  obtain ⟨idx, _, hidx⟩ := hb
  by_cases hc : 0 < idx ∧ idx ≤ (blogs.length : Int)
  · rw [if_pos hc] at hidx
    exact List.getElem?_mem hidx
  · rw [if_neg hc] at hidx
    cases hidx

lemma validSelection_eq_filter_map (blogs : List Blog) (l : List Int) :
    validSelection blogs l
      = (l.filter fun idx => decide (0 < idx ∧ idx ≤ (blogs.length : Int))).map
          fun idx => blogs.getD (idx - 1).toNat default := by
  induction l with
  | nil => rfl
  | cons idx rest ih =>
    unfold validSelection at ih ⊢
    rw [List.filterMap_cons, List.filter_cons]
    by_cases hc : 0 < idx ∧ idx ≤ (blogs.length : Int)
    · have hlt : (idx - 1).toNat < blogs.length := by omega
      have hd : decide (0 < idx ∧ idx ≤ (blogs.length : Int)) = true := decide_eq_true hc
      rw [if_pos hc, List.getElem?_eq_getElem hlt, hd, if_pos rfl, List.map_cons, ih]
      rw [List.getD_eq_getElem?_getD, List.getElem?_eq_getElem hlt]
      rfl
    · have hd : decide (0 < idx ∧ idx ≤ (blogs.length : Int)) = false := decide_eq_false hc
      rw [if_neg hc, hd, if_neg (by simp), ih]

/-- Claim C8 — Hybrid Reranker short-circuit identity: whenever
`len(pool) <= finalCount` (the empty pool included), the reranker returns
the pool unchanged. The statement holds for every value of the judgment
oracle `llmOutcome`, so the output is independent of the Judgment Gateway:
no call to it can influence the result (in the source the `return` happens
before the gateway is contacted). -/
theorem reranker_short_circuit (blogs : List Blog) (llmOutcome : Option (List Int))
    (num_to_select : Nat) (h : blogs.length ≤ num_to_select) :
    select_best_blogs_with_llm blogs llmOutcome num_to_select = blogs := by
  unfold select_best_blogs_with_llm
  rw [if_pos h]

theorem reranker_short_circuit_witness :
    [gBlog].length ≤ 3 ∧ select_best_blogs_with_llm [gBlog] (some [7]) 3 = [gBlog] :=
  ⟨by decide, reranker_short_circuit [gBlog] (some [7]) 3 (by decide)⟩

/-- Claim C3 — Hybrid Reranker fallback: for a pool larger than the final
count, a gateway error or unparsable reply (`llmOutcome = none`) and an
empty validated selection both yield `pool[0:finalCount]`. The function is
total into `List Blog` — the source catches every exception — so no
failure can propagate to the caller. -/
theorem reranker_fallback (blogs : List Blog) (num_to_select : Nat)
    (h : num_to_select < blogs.length) :
    select_best_blogs_with_llm blogs none num_to_select = blogs.take num_to_select ∧
    ∀ selected_indices, validSelection blogs selected_indices = [] →
      select_best_blogs_with_llm blogs (some selected_indices) num_to_select
        = blogs.take num_to_select := by
  have hn : ¬ blogs.length ≤ num_to_select := Nat.not_le.mpr h
  constructor
  · unfold select_best_blogs_with_llm
    rw [if_neg hn]
  · intro selected_indices hsel
    unfold select_best_blogs_with_llm
    rw [if_neg hn]
    simp only [hsel, List.isEmpty_nil, if_pos]

theorem reranker_fallback_witness :
    3 < pool30.length ∧ validSelection pool30 [0, 99] = [] ∧
    select_best_blogs_with_llm pool30 none 3 = pool30.take 3 ∧
    select_best_blogs_with_llm pool30 (some [0, 99]) 3 = pool30.take 3 := by
  have hval : validSelection pool30 [0, 99] = [] := by with_unfolding_all rfl
  exact ⟨by decide, hval, (reranker_fallback pool30 3 (by decide)).1,
    (reranker_fallback pool30 3 (by decide)).2 [0, 99] hval⟩

/-- Claim C10 — implicit subset invariant of the reranker: on every
execution path (short-circuit, LLM-index selection, empty-selection
fallback and exception fallback) each element of the output list is an
element of the input list; nothing is fabricated or altered. -/
theorem reranker_output_subset (blogs : List Blog) (llmOutcome : Option (List Int))
    (num_to_select : Nat) (b : Blog)
    (hb : b ∈ select_best_blogs_with_llm blogs llmOutcome num_to_select) : b ∈ blogs := by
  unfold select_best_blogs_with_llm at hb
  by_cases h : blogs.length ≤ num_to_select
  · rw [if_pos h] at hb
    exact hb
  · rw [if_neg h] at hb
    match llmOutcome with
    | none => exact List.mem_of_mem_take hb
    | some selected_indices =>
      simp only at hb
      by_cases he : (validSelection blogs selected_indices).isEmpty
      · rw [if_pos he] at hb
        exact List.mem_of_mem_take hb
      · rw [if_neg he] at hb
        exact mem_validSelection hb

theorem reranker_output_subset_witness :
    gBlog ∈ select_best_blogs_with_llm [gBlog, dKuma, dApi, dLife] (some [1]) 3 ∧
    gBlog ∈ [gBlog, dKuma, dApi, dLife] := by
  have hm : gBlog ∈ select_best_blogs_with_llm [gBlog, dKuma, dApi, dLife] (some [1]) 3 := by
    have e : select_best_blogs_with_llm [gBlog, dKuma, dApi, dLife] (some [1]) 3 = [gBlog] := by
      with_unfolding_all rfl
    rw [e]
    exact List.mem_cons_self _ _
  exact ⟨hm, reranker_output_subset [gBlog, dKuma, dApi, dLife] (some [1]) 3 gBlog hm⟩

/-- Claim C1, amended — Hybrid Reranker index validation: for a pool larger
than the final count and a parsed gateway reply whose validated selection
is non-empty, the output keeps exactly the reply indices that are positive
and at most `len(pool)` (out-of-range indices silently dropped), each
surviving index occurrence — duplicates included, one output entry per
occurrence — mapped back to its Match in the gateway's returned order. In
particular the scenario pool of 30 with reply `[2, 5, 2, 99]` yields the
documents at 1-indexed positions 2, 5 and 2, in that order: the source's
list comprehension does not collapse duplicate indices. -/
theorem reranker_index_validation :
    (∀ (blogs : List Blog) (selected_indices : List Int) (num_to_select : Nat),
        num_to_select < blogs.length →
        validSelection blogs selected_indices ≠ [] →
        select_best_blogs_with_llm blogs (some selected_indices) num_to_select
          = (selected_indices.filter fun idx =>
                decide (0 < idx ∧ idx ≤ (blogs.length : Int))).map
              fun idx => blogs.getD (idx - 1).toNat default) ∧
    select_best_blogs_with_llm pool30 (some [2, 5, 2, 99]) 3 = [mkB 1, mkB 4, mkB 1] := by
  constructor
  · intro blogs selected_indices num_to_select h hne
    unfold select_best_blogs_with_llm
    rw [if_neg (Nat.not_le.mpr h)]
    simp only [List.isEmpty_eq_false.mpr hne, if_neg, Bool.false_eq_true, not_false_iff]
    exact validSelection_eq_filter_map blogs selected_indices
  · with_unfolding_all rfl

theorem reranker_index_validation_witness :
    3 < pool30.length ∧ validSelection pool30 [2, 5, 2, 99] ≠ [] ∧
    select_best_blogs_with_llm pool30 (some [2, 5, 2, 99]) 3
      = ([2, 5, 2, 99].filter fun idx =>
            decide (0 < idx ∧ idx ≤ (pool30.length : Int))).map
          (fun idx => pool30.getD (idx - 1).toNat default) := by
  have hne : validSelection pool30 [2, 5, 2, 99] ≠ [] := by
    have e : validSelection pool30 [2, 5, 2, 99] = [mkB 1, mkB 4, mkB 1] := by
      with_unfolding_all rfl
    rw [e]
    intro hcon
    cases hcon
  exact ⟨by decide, hne,
    reranker_index_validation.1 pool30 [2, 5, 2, 99] 3 (by decide) hne⟩

/-- Claim C1, counterexample — the claim as stated says the reply
`[2, 5, 2, 99]` on a 30-document pool yields exactly the two documents at
positions 2 and 5; the embedded source produces three entries, the
document at position 2 appearing twice. -/
theorem reranker_duplicate_index_cex :
    select_best_blogs_with_llm pool30 (some [2, 5, 2, 99]) 3 ≠ [mkB 1, mkB 4] := by
  have e : select_best_blogs_with_llm pool30 (some [2, 5, 2, 99]) 3
      = [mkB 1, mkB 4, mkB 1] := by with_unfolding_all rfl
  rw [e]
  intro hcon
  have : ([mkB 1, mkB 4, mkB 1] : List Blog).length = ([mkB 1, mkB 4] : List Blog).length := by
    rw [hcon]
  simp at this

/-- Claim C6, amended — missing-embedding precondition: when the candidate
profile has no qualifying vector (neither a truthy professional-summary
embedding nor a truthy legacy embedding — `None` and the empty list are
both disqualifying in the source's truthiness tests), the retriever
returns the empty list, and the result is the same for every similarity
gateway and every query parameter: the gateway branch is never reached, so
no call to the Similarity Gateway is issued. The missing-embedding
condition is only logged; the caller receives a plain `[]`, not an error
value. -/
theorem retriever_missing_embedding (candidate : Candidate)
    (gwDedup gwAll gwDedup2 gwAll2 : List ℚ → ℚ → Nat → List Blog)
    (match_threshold match_threshold2 : ℚ) (match_count match_count2 : Nat)
    (deduplicate deduplicate2 : Bool)
    (h1 : truthy candidate.professional_summary_embedding = false)
    (h2 : truthy candidate.embedding = false) :
    find_blogs_for_candidate (some candidate) gwDedup gwAll
        match_threshold match_count deduplicate = [] ∧
    find_blogs_for_candidate (some candidate) gwDedup gwAll
        match_threshold match_count deduplicate
      = find_blogs_for_candidate (some candidate) gwDedup2 gwAll2
          match_threshold2 match_count2 deduplicate2 := by
  unfold find_blogs_for_candidate
  simp [h1, h2]

theorem retriever_missing_embedding_witness :
    truthy (Candidate.mk none none).professional_summary_embedding = false ∧
    truthy (Candidate.mk none none).embedding = false ∧
    find_blogs_for_candidate (some ⟨none, none⟩) gwPin gwPin (35/100) 5 true = [] ∧
    find_blogs_for_candidate (some ⟨none, none⟩) gwPin gwPin (35/100) 5 true
      = find_blogs_for_candidate (some ⟨none, none⟩) gwNone gwNone (1/4) 30 false :=
  ⟨rfl, rfl,
    (retriever_missing_embedding ⟨none, none⟩ gwPin gwPin gwNone gwNone
      (35/100) (1/4) 5 30 true false rfl rfl).1,
    (retriever_missing_embedding ⟨none, none⟩ gwPin gwPin gwNone gwNone
      (35/100) (1/4) 5 30 true false rfl rfl).2⟩

/-- Claim C6, counterexample — the claim as stated says the retriever
fails with a `MissingEmbedding` error visible to its caller. On a profile
with no embeddings the source returns the ordinary value `[]`, even
through a gateway that would return matches — and that value is identical
to the perfectly valid no-results outcome of a qualifying profile queried
against a gateway with no sufficiently similar content: no error value of
any kind reaches the caller. -/
theorem retriever_missing_embedding_cex :
    find_blogs_for_candidate (some ⟨none, none⟩) gwPin gwPin (35/100) 5 true = [] ∧
    find_blogs_for_candidate (some ⟨some [1], none⟩) gwNone gwNone (35/100) 5 true = [] :=
  ⟨rfl, rfl⟩

/-! Helper lemmas about the Diversity Filter. -/

lemma passOne_eq (target : Nat) : ∀ (l acc : List Blog),
    passOne target l acc
      = acc ++ (l.filter fun b => !isGenericTitle b).take (target - acc.length) := by
  intro l
  induction l with
  | nil => intro acc; simp [passOne]
  | cons b rest ih =>
    intro acc
    unfold passOne
    by_cases ht : target ≤ acc.length
    · rw [if_pos ht, Nat.sub_eq_zero_of_le ht]
      simp
    · rw [if_neg ht, List.filter_cons]
      by_cases hg : isGenericTitle b
      · simp only [hg, Bool.not_true, Bool.false_eq_true, if_neg, if_pos]
        exact ih acc
    -- the non-generic branch appends b and consumes one slot of the budget
      · have hsucc : target - acc.length = (target - (acc.length + 1)) + 1 := by omega
        simp only [hg, Bool.not_false, if_pos, if_neg]
        rw [ih (acc ++ [b]), hsucc, List.take_succ_cons]
        simp [List.append_assoc]

lemma passTwo_eq (target : Nat) : ∀ (l acc : List Blog), l.Nodup →
    passTwo target l acc
      = acc ++ (l.filter fun b => decide (b ∉ acc)).take (target - acc.length) := by
  intro l
  induction l with
  | nil => intro acc _; simp [passTwo]
  | cons b rest ih =>
    intro acc hnd
    have hbrest : b ∉ rest := (List.nodup_cons.mp hnd).1
    have hndrest : rest.Nodup := (List.nodup_cons.mp hnd).2
    unfold passTwo
    by_cases ht : target ≤ acc.length
    · rw [if_pos ht, Nat.sub_eq_zero_of_le ht]
      simp
    · rw [if_neg ht]
      by_cases hmem : b ∈ acc
      · rw [if_pos hmem, ih acc hndrest, List.filter_cons,
          decide_eq_false (fun hc => hc hmem), if_neg Bool.false_ne_true]
      · have hsucc : target - acc.length = (target - (acc.length + 1)) + 1 := by omega
        rw [if_neg hmem, List.filter_cons, decide_eq_true hmem, if_pos rfl,
          ih (acc ++ [b]) hndrest, hsucc, List.take_succ_cons]
        have hfeq : (rest.filter fun x => decide (x ∉ acc ++ [b]))
            = rest.filter fun x => decide (x ∉ acc) := by
          apply List.filter_congr
          intro x hx
          have hxb : x ≠ b := fun hcon => hbrest (hcon ▸ hx)
          by_cases hxa : x ∈ acc
          · rw [decide_eq_false (fun hc => hc (List.mem_append_left _ hxa)),
              decide_eq_false (fun hc => hc hxa)]
          · have hnot : x ∉ acc ++ [b] := by
              intro hc
              rcases List.mem_append.mp hc with h | h
              · exact hxa h
              · exact hxb (List.mem_singleton.mp h)
            rw [decide_eq_true hnot, decide_eq_true hxa]
        rw [hfeq]
        simp [List.append_assoc]

lemma length_filter_compl {α : Type} (p : α → Bool) (l : List α) :
    (l.filter p).length + (l.filter fun x => !p x).length = l.length := by
  induction l with
  | nil => rfl
  | cons x rest ih =>
    rw [List.filter_cons, List.filter_cons]
    by_cases hp : p x
    · have h2 : (!p x) = false := by rw [hp]; rfl
      rw [h2, if_neg Bool.false_ne_true, hp, if_pos rfl]
      simp only [List.length_cons]
      omega
    · have h1 : p x = false := Bool.eq_false_iff.mpr hp
      have h2 : (!p x) = true := by rw [h1]; rfl
      rw [h2, if_pos rfl, h1, if_neg Bool.false_ne_true]
      simp only [List.length_cons]
      omega

/-- Claim C4, amended — Diversity Filter shape and order, for input lists
without duplicate entries: the output is the first-pass list (the
non-generic matches in input order, truncated to the target count)
followed by the second-pass fill (the matches not already selected, again
in input order, filling the remaining budget), and its length is
`min (targetCount, len(input))`. When the input contains duplicate
entries the length equation fails (see the counterexample): the second
pass skips a duplicate of an already selected blog, so the no-duplicate
hypothesis is exactly what the counterexample forces. -/
theorem diversity_filter_shape (blog_matches : List Blog) (target : Nat)
    (hnd : blog_matches.Nodup) :
    filterDiverse blog_matches target
      = (blog_matches.filter fun b => !isGenericTitle b).take target
        ++ (blog_matches.filter fun b =>
              decide (b ∉ (blog_matches.filter fun c => !isGenericTitle c).take target)).take
            (target
              - ((blog_matches.filter fun b => !isGenericTitle b).take target).length) ∧
    (filterDiverse blog_matches target).length = min target blog_matches.length := by
  have hchar : filterDiverse blog_matches target
      = (blog_matches.filter fun b => !isGenericTitle b).take target
        ++ (blog_matches.filter fun b =>
              decide (b ∉ (blog_matches.filter fun c => !isGenericTitle c).take target)).take
            (target
              - ((blog_matches.filter fun b => !isGenericTitle b).take target).length) := by
    unfold filterDiverse
    rw [passOne_eq, passTwo_eq target blog_matches _ hnd]
    simp
  refine ⟨hchar, ?_⟩
  rw [hchar]
  rw [List.length_append, List.length_take, List.length_take]
  have hFb : (blog_matches.filter fun b => !isGenericTitle b).length
      ≤ blog_matches.length := List.length_filter_le _ _
  by_cases hcase : target ≤ (blog_matches.filter fun b => !isGenericTitle b).length
  · rw [Nat.min_eq_left hcase, Nat.min_eq_left (le_trans hcase hFb), Nat.sub_self]
    simp
  · push_neg at hcase
    have htake : (blog_matches.filter fun c => !isGenericTitle c).take target
        = blog_matches.filter fun c => !isGenericTitle c :=
      List.take_of_length_le (Nat.le_of_lt hcase)
    have hGeq : (blog_matches.filter fun b =>
          decide (b ∉ (blog_matches.filter fun c => !isGenericTitle c).take target))
        = blog_matches.filter fun b => isGenericTitle b := by
      apply List.filter_congr
      intro x hx
      rw [htake]
      by_cases hgen : isGenericTitle x
      · have hnotin : x ∉ blog_matches.filter fun c => !isGenericTitle c := by
          intro hc
          have h2 := (List.mem_filter.mp hc).2
          rw [hgen] at h2
          cases h2
        rw [decide_eq_true hnotin, hgen]
      · have hin : x ∈ blog_matches.filter fun c => !isGenericTitle c :=
          List.mem_filter.mpr ⟨hx, by rw [Bool.eq_false_iff.mpr hgen]; rfl⟩
        rw [decide_eq_false (fun hc => hc hin)]
        exact (Bool.eq_false_iff.mpr hgen).symm
    rw [hGeq]
    have hsum := length_filter_compl (fun b => !isGenericTitle b) blog_matches
    simp only [Bool.not_not] at hsum
    rw [Nat.min_eq_right (Nat.le_of_lt hcase)]
    rcases Nat.le_total
        (target - (blog_matches.filter fun b => !isGenericTitle b).length)
        (blog_matches.filter fun b => isGenericTitle b).length with hle | hge
    · rw [Nat.min_eq_left hle,
        Nat.min_eq_left (show target ≤ blog_matches.length by omega)]
      omega
    · rw [Nat.min_eq_right hge,
        Nat.min_eq_right (show blog_matches.length ≤ target by omega)]
      omega

theorem diversity_filter_shape_witness :
    dBlogs.Nodup ∧ (filterDiverse dBlogs 3).length = min 3 dBlogs.length :=
  ⟨by decide, (diversity_filter_shape dBlogs 3 (by decide)).2⟩

/-- Claim C4, counterexample — the claim as stated quantifies over every
input list; on the two-element input that repeats one generic-titled blog
the output has length 1, not `min (3, 2) = 2`: the first pass skips both
occurrences and the second pass refuses the second occurrence because an
equal blog is already selected. -/
theorem diversity_filter_dup_cex :
    (filterDiverse [gBlog, gBlog] 3).length ≠ min 3 ([gBlog, gBlog] : List Blog).length := by
  have e : filterDiverse [gBlog, gBlog] 3 = [gBlog] := by with_unfolding_all rfl
  rw [e]
  decide

/-! Helper lemmas about the Two-Stage Eligibility Matcher. -/

lemma stage1_ok_mem (p : List ℚ) (jobEmbed : Job → List ℚ) (sim : List ℚ → List ℚ → ℚ)
    (match_threshold : ℚ) : ∀ (jobs : List Job) (l : List ScoredJob),
    stage1 p jobEmbed sim match_threshold jobs = .ok l →
    ∀ sj ∈ l, match_threshold ≤ sj.similarity ∧ sj.similarity = sim p (jobEmbed sj.job) := by
  intro jobs
  induction jobs with
  | nil =>
    intro l h sj hm
    unfold stage1 at h
    injection h with h2
    subst h2
    cases hm
  | cons job rest ih =>
    intro l h sj hm
    unfold stage1 at h
    split at h
    · split at h
      next tail heq =>
        injection h with h2
        subst h2
        by_cases hth : match_threshold ≤ sim p (jobEmbed job)
        · rw [if_pos hth] at hm
          rcases List.mem_cons.mp hm with rfl | hmt
          · exact ⟨hth, rfl⟩
          · exact ih tail heq sj hmt
        · rw [if_neg hth] at hm
          exact ih tail heq sj hm
      next err heq => cases h
    · cases h

lemma stage1_error_of_mismatch (p : List ℚ) (jobEmbed : Job → List ℚ)
    (sim : List ℚ → List ℚ → ℚ) (match_threshold : ℚ) : ∀ (jobs : List Job),
    (∃ j ∈ jobs, (jobEmbed j).length ≠ p.length) →
    stage1 p jobEmbed sim match_threshold jobs = .error .dimensionMismatch := by
  intro jobs
  induction jobs with
  | nil =>
    rintro ⟨j, hj, _⟩
    cases hj
  | cons job rest ih =>
    rintro ⟨j, hj, hne⟩
    unfold stage1
    by_cases hd : p.length = (jobEmbed job).length
    · rw [if_pos hd]
      have hex : ∃ j ∈ rest, (jobEmbed j).length ≠ p.length := by
        rcases List.mem_cons.mp hj with rfl | hjr
        · exact absurd hd.symm hne
        · exact ⟨j, hjr, hne⟩
      rw [ih hex]
    · rw [if_neg hd]

lemma mem_insertDesc {c x : ScoredJob} : ∀ {l : List ScoredJob},
    x ∈ insertDesc c l ↔ x = c ∨ x ∈ l := by
  intro l
  induction l with
  | nil => simp [insertDesc]
  | cons d rest ih =>
    unfold insertDesc
    by_cases h : simDesc c d
    · rw [if_pos h]
      simp [List.mem_cons]
    · rw [if_neg h]
      simp only [List.mem_cons, ih]
      tauto

lemma pairwise_insertDesc {c : ScoredJob} {l : List ScoredJob}
    (h : l.Pairwise fun a b => b.similarity ≤ a.similarity) :
    (insertDesc c l).Pairwise fun a b => b.similarity ≤ a.similarity := by
  induction l with
  | nil => simp [insertDesc]
  | cons d rest ih =>
    rw [List.pairwise_cons] at h
    unfold insertDesc
    by_cases hc : simDesc c d
    · rw [if_pos hc]
      have hcd : d.similarity ≤ c.similarity := by
        unfold simDesc at hc
        exact of_decide_eq_true hc
      rw [List.pairwise_cons]
      refine ⟨?_, List.pairwise_cons.mpr h⟩
      intro y hy
      rcases List.mem_cons.mp hy with rfl | hyr
      · exact hcd
      · exact le_trans (h.1 y hyr) hcd
    · rw [if_neg hc]
      have hdc : c.similarity ≤ d.similarity := by
        have hnot : ¬ d.similarity ≤ c.similarity := fun hle => hc (by
          unfold simDesc
          exact decide_eq_true hle)
        exact le_of_not_le hnot
      rw [List.pairwise_cons]
      refine ⟨?_, ih h.2⟩
      intro y hy
      rcases mem_insertDesc.mp hy with rfl | hyr
      · exact hdc
      · exact h.1 y hyr

lemma mem_sortBySimDesc {x : ScoredJob} : ∀ {l : List ScoredJob},
    x ∈ sortBySimDesc l ↔ x ∈ l := by
  intro l
  induction l with
  | nil => simp [sortBySimDesc]
  | cons c rest ih =>
    unfold sortBySimDesc
    rw [mem_insertDesc]
    simp [ih, List.mem_cons]

lemma pairwise_sortBySimDesc (l : List ScoredJob) :
    (sortBySimDesc l).Pairwise fun a b => b.similarity ≤ a.similarity := by
  induction l with
  | nil => simp [sortBySimDesc]
  | cons c rest ih =>
    unfold sortBySimDesc
    exact pairwise_insertDesc ih

lemma confirmOne_some {evalLLM : Job → ℚ → Option Judgment} {c : ScoredJob} {m : JobMatch}
    (h : confirmOne evalLLM c = some m) :
    m.job = c.job ∧ m.similarity = c.similarity ∧
    ∃ evaluation, evalLLM c.job c.similarity = some evaluation ∧
      evaluation.is_match = true ∧ m.llm_evaluation = evaluation := by
  unfold confirmOne at h
  split at h
  next evaluation heq =>
    split at h
    next hmatch =>
      injection h with h2
      subst h2
      exact ⟨rfl, rfl, evaluation, heq, hmatch, rfl⟩
    next hmatch => cases h
  next heq => cases h

lemma pairwise_stage2 (evalLLM : Job → ℚ → Option Judgment) (sorted : List ScoredJob)
    (h : sorted.Pairwise fun a b => b.similarity ≤ a.similarity) :
    (stage2 evalLLM sorted).Pairwise fun a b : JobMatch => b.similarity ≤ a.similarity := by
  unfold stage2
  rw [List.pairwise_filterMap]
  have h5 : (sorted.take 5).Pairwise fun a b : ScoredJob => b.similarity ≤ a.similarity :=
    List.Pairwise.sublist (List.take_sublist 5 sorted) h
  refine h5.imp ?_
  intro a b hab x hx y hy
  have hxa := confirmOne_some hx
  have hyb := confirmOne_some hy
  rw [hxa.2.1, hyb.2.1]
  exact hab

lemma match_eq_of_stage1 {candidate_profile : Candidate} {p : List ℚ} {alljobs : List Job}
    {jobEmbed : Job → List ℚ} {sim : List ℚ → List ℚ → ℚ}
    {evalLLM : Job → ℚ → Option Judgment} {match_threshold : ℚ}
    {survivors : List ScoredJob}
    (hq : qualifyingEmbeddingJobs candidate_profile = some p)
    (hs : stage1 p jobEmbed sim match_threshold
        (alljobs.filter fun j => j.status == "active") = .ok survivors) :
    match_candidate_to_jobs (some candidate_profile) alljobs jobEmbed sim evalLLM
        match_threshold
      = (stage2 evalLLM (sortBySimDesc survivors)).take 2 := by
  simp only [match_candidate_to_jobs, match_inner]
  rw [hq]
  simp only [withEmbedding]
  by_cases hA : (alljobs.filter fun j => j.status == "active").isEmpty
  · have hnil : (alljobs.filter fun j => j.status == "active") = [] :=
      List.isEmpty_iff.mp hA
    rw [hnil] at hs
    unfold stage1 at hs
    injection hs with h2
    subst h2
    rw [hA, if_pos rfl]
    rfl
  · rw [Bool.eq_false_iff.mpr hA, if_neg Bool.false_ne_true, hs,
      show (Except.ok survivors >>= fun semantic_candidates =>
          if semantic_candidates.isEmpty then Except.ok ([] : List JobMatch)
          else Except.ok ((stage2 evalLLM (sortBySimDesc semantic_candidates)).take 2))
        = if survivors.isEmpty then Except.ok ([] : List JobMatch)
          else Except.ok ((stage2 evalLLM (sortBySimDesc survivors)).take 2) from rfl]
    by_cases hE : survivors.isEmpty
    · have hnil : survivors = [] := List.isEmpty_iff.mp hE
      subst hnil
      rfl
    · rw [Bool.eq_false_iff.mpr hE, if_neg Bool.false_ne_true]
      rfl

lemma match_shape (cand? : Option Candidate) (alljobs : List Job)
    (jobEmbed : Job → List ℚ) (sim : List ℚ → List ℚ → ℚ)
    (evalLLM : Job → ℚ → Option Judgment) (match_threshold : ℚ) :
    match_candidate_to_jobs cand? alljobs jobEmbed sim evalLLM match_threshold = [] ∨
    ∃ candidate_profile p survivors, cand? = some candidate_profile ∧
      qualifyingEmbeddingJobs candidate_profile = some p ∧
      stage1 p jobEmbed sim match_threshold
          (alljobs.filter fun j => j.status == "active") = .ok survivors ∧
      match_candidate_to_jobs cand? alljobs jobEmbed sim evalLLM match_threshold
        = (stage2 evalLLM (sortBySimDesc survivors)).take 2 := by
  cases cand? with
  | none => exact Or.inl rfl
  | some candidate_profile =>
    cases hq : qualifyingEmbeddingJobs candidate_profile with
    | none =>
      left
      simp only [match_candidate_to_jobs, match_inner]
      rw [hq]
      rfl
    | some p =>
      cases hs : stage1 p jobEmbed sim match_threshold
          (alljobs.filter fun j => j.status == "active") with
      | error err =>
        left
        simp only [match_candidate_to_jobs, match_inner]
        rw [hq]
        simp only [withEmbedding]
        by_cases hA : (alljobs.filter fun j => j.status == "active").isEmpty
        · exfalso
          rw [List.isEmpty_iff.mp hA] at hs
          unfold stage1 at hs
          cases hs
        · rw [Bool.eq_false_iff.mpr hA, if_neg Bool.false_ne_true, hs]
          rfl
      | ok survivors =>
        exact Or.inr ⟨candidate_profile, p, survivors, rfl, hq, hs,
          match_eq_of_stage1 hq hs⟩

/-- Claim C2 — Two-Stage Eligibility Matcher output invariants: for every
candidate profile, every set of job targets and every embedding,
similarity-kernel and judgment oracle, the output of
`match_candidate_to_jobs` has length at most the final cap of 2
(`confirmed_matches[:2]`), is sorted descending by similarity, and every
member carries a similarity that is at least `match_threshold` and equals
the Stage-1 similarity of the profile's qualifying vector with the
member's own job embedding — so no target whose similarity is below the
threshold ever appears in the output. -/
theorem two_stage_output_invariants (cand? : Option Candidate) (alljobs : List Job)
    (jobEmbed : Job → List ℚ) (sim : List ℚ → List ℚ → ℚ)
    (evalLLM : Job → ℚ → Option Judgment) (match_threshold : ℚ) :
    (match_candidate_to_jobs cand? alljobs jobEmbed sim evalLLM match_threshold).length
        ≤ 2 ∧
    (match_candidate_to_jobs cand? alljobs jobEmbed sim evalLLM match_threshold).Pairwise
      (fun a b => b.similarity ≤ a.similarity) ∧
    ∀ candidate_profile p, cand? = some candidate_profile →
      qualifyingEmbeddingJobs candidate_profile = some p →
      ∀ m ∈ match_candidate_to_jobs cand? alljobs jobEmbed sim evalLLM match_threshold,
        match_threshold ≤ m.similarity ∧ m.similarity = sim p (jobEmbed m.job) := by
  rcases match_shape cand? alljobs jobEmbed sim evalLLM match_threshold with hnil | hshape
  · rw [hnil]
    refine ⟨by simp, by simp, ?_⟩
    intro _ _ _ _ m hm
    cases hm
  · obtain ⟨cp, p0, survivors, hc, hq0, hs0, heq⟩ := hshape
    rw [heq]
    refine ⟨List.length_take_le 2 _, ?_, ?_⟩
    · exact List.Pairwise.sublist (List.take_sublist 2 _)
        (pairwise_stage2 evalLLM _ (pairwise_sortBySimDesc survivors))
    · intro candidate_profile p hcand hq m hm
      rw [hc] at hcand
      injection hcand with hcp
      subst hcp
      rw [hq0] at hq
      injection hq with hp
      subst hp
      have hm2 : m ∈ stage2 evalLLM (sortBySimDesc survivors) := List.mem_of_mem_take hm
      unfold stage2 at hm2
      obtain ⟨sc, hsc5, hconf⟩ := List.mem_filterMap.mp hm2
      have hscs : sc ∈ survivors := mem_sortBySimDesc.mp (List.mem_of_mem_take hsc5)
      have hinv := stage1_ok_mem _ jobEmbed sim match_threshold _ survivors hs0 sc hscs
      obtain ⟨hjob, hsim, _⟩ := confirmOne_some hconf
      constructor
      · rw [hsim]
        exact hinv.1
      · rw [hsim, hjob]
        exact hinv.2

theorem two_stage_output_invariants_witness :
    (some candJ : Option Candidate) = some candJ ∧
    qualifyingEmbeddingJobs candJ = some [1] ∧
    matchA ∈ match_candidate_to_jobs (some candJ) jobsC jobEmbedC dotQ evalC (35/100) ∧
    (35/100 : ℚ) ≤ matchA.similarity ∧
    matchA.similarity = dotQ [1] (jobEmbedC matchA.job) := by
  have hm : matchA ∈ match_candidate_to_jobs (some candJ) jobsC jobEmbedC dotQ evalC
      (35/100) := by
    have e : match_candidate_to_jobs (some candJ) jobsC jobEmbedC dotQ evalC (35/100)
        = [matchA, matchD] := by with_unfolding_all rfl
    rw [e]
    exact List.mem_cons_self _ _
  have h := (two_stage_output_invariants (some candJ) jobsC jobEmbedC dotQ evalC
      (35/100)).2.2 candJ [1] rfl rfl matchA hm
  exact ⟨rfl, rfl, hm, h.1, h.2⟩

/-- Claim C5 — Stage-2 confirmation strictness: a match appears in the
output of `match_candidate_to_jobs` only if the judgment oracle returned
an explicit evaluation whose `is_match` field is true for that job — an
oracle error or timeout (`none`) or a rejection contributes nothing and is
never treated as an accept (the oracle is consulted exactly once per
candidate in the single Stage-2 pass, with no retry) — and every output
member comes from the top-5 slice of the similarity-sorted Stage-1
survivors (`semantic_candidates[:5]`), the only entries ever submitted to
the gateway. -/
theorem stage2_confirmation_strictness (cand? : Option Candidate) (alljobs : List Job)
    (jobEmbed : Job → List ℚ) (sim : List ℚ → List ℚ → ℚ)
    (evalLLM : Job → ℚ → Option Judgment) (match_threshold : ℚ) :
    (∀ m ∈ match_candidate_to_jobs cand? alljobs jobEmbed sim evalLLM match_threshold,
       ∃ evaluation, evalLLM m.job m.similarity = some evaluation ∧
         evaluation.is_match = true ∧ m.llm_evaluation = evaluation) ∧
    ∀ candidate_profile p survivors, cand? = some candidate_profile →
      qualifyingEmbeddingJobs candidate_profile = some p →
      stage1 p jobEmbed sim match_threshold
          (alljobs.filter fun j => j.status == "active") = .ok survivors →
      ∀ m ∈ match_candidate_to_jobs cand? alljobs jobEmbed sim evalLLM match_threshold,
        ∃ sc ∈ (sortBySimDesc survivors).take 5,
          m.job = sc.job ∧ m.similarity = sc.similarity := by
  constructor
  · intro m hm
    rcases match_shape cand? alljobs jobEmbed sim evalLLM match_threshold with hnil | hshape
    · rw [hnil] at hm
      cases hm
    · obtain ⟨cp, p0, survivors, hc, hq0, hs0, heq⟩ := hshape
      rw [heq] at hm
      have hm2 := List.mem_of_mem_take hm
      unfold stage2 at hm2
      obtain ⟨sc, hsc5, hconf⟩ := List.mem_filterMap.mp hm2
      obtain ⟨hjob, hsim, evaluation, heval, hmatch, hevm⟩ := confirmOne_some hconf
      refine ⟨evaluation, ?_, hmatch, hevm⟩
      rw [hjob, hsim]
      exact heval
  · intro candidate_profile p survivors hcand hq hs m hm
    subst hcand
    rw [match_eq_of_stage1 hq hs] at hm
    have hm2 := List.mem_of_mem_take hm
    unfold stage2 at hm2
    obtain ⟨sc, hsc5, hconf⟩ := List.mem_filterMap.mp hm2
    obtain ⟨hjob, hsim, _⟩ := confirmOne_some hconf
    exact ⟨sc, hsc5, hjob, hsim⟩

theorem stage2_confirmation_strictness_witness :
    (some candJ : Option Candidate) = some candJ ∧
    qualifyingEmbeddingJobs candJ = some [1] ∧
    stage1 [1] jobEmbedC dotQ (35/100) (jobsC.filter fun j => j.status == "active")
      = .ok survC ∧
    ∃ sc ∈ (sortBySimDesc survC).take 5,
      matchA.job = sc.job ∧ matchA.similarity = sc.similarity := by
  have hs : stage1 [1] jobEmbedC dotQ (35/100)
      (jobsC.filter fun j => j.status == "active") = .ok survC := by
    with_unfolding_all rfl
  have hm : matchA ∈ match_candidate_to_jobs (some candJ) jobsC jobEmbedC dotQ evalC
      (35/100) := by
    have e : match_candidate_to_jobs (some candJ) jobsC jobEmbedC dotQ evalC (35/100)
        = [matchA, matchD] := by with_unfolding_all rfl
    rw [e]
    exact List.mem_cons_self _ _
  exact ⟨rfl, rfl, hs,
    (stage2_confirmation_strictness (some candJ) jobsC jobEmbedC dotQ evalC (35/100)).2
      candJ [1] survC rfl rfl hs matchA hm⟩

/-- Claim C7, amended — dimension-mismatch behaviour: when any active job's
query-time embedding disagrees in length with the profile's qualifying
vector, the Stage-1 similarity computation does raise a dimension-mismatch
error (`np.dot` raises a `ValueError`; nothing truncates or pads the
vectors), so the `try` body finishes as that error — but
`match_candidate_to_jobs` catches every exception and returns `[]` to its
caller: the error is logged (reported), not surfaced; the caller observes
an empty result. -/
theorem dimension_mismatch_behaviour (candidate_profile : Candidate) (alljobs : List Job)
    (jobEmbed : Job → List ℚ) (sim : List ℚ → List ℚ → ℚ)
    (evalLLM : Job → ℚ → Option Judgment) (match_threshold : ℚ) (p : List ℚ)
    (hq : qualifyingEmbeddingJobs candidate_profile = some p)
    (hex : ∃ j ∈ alljobs.filter (fun j => j.status == "active"),
      (jobEmbed j).length ≠ p.length) :
    match_inner (some candidate_profile) alljobs jobEmbed sim evalLLM match_threshold
      = .error .dimensionMismatch ∧
    match_candidate_to_jobs (some candidate_profile) alljobs jobEmbed sim evalLLM
      match_threshold = [] := by
  have hs := stage1_error_of_mismatch p jobEmbed sim match_threshold _ hex
  have hA : (alljobs.filter fun j => j.status == "active").isEmpty = false := by
    obtain ⟨j, hj, _⟩ := hex
    exact List.isEmpty_eq_false.mpr (List.ne_nil_of_mem hj)
  have h1 : match_inner (some candidate_profile) alljobs jobEmbed sim evalLLM
      match_threshold = .error .dimensionMismatch := by
    simp only [match_inner]
    rw [hq]
    simp only [withEmbedding]
    rw [hA, if_neg Bool.false_ne_true, hs]
    rfl
  refine ⟨h1, ?_⟩
  unfold match_candidate_to_jobs
  rw [h1]
  rfl

theorem dimension_mismatch_behaviour_witness :
    qualifyingEmbeddingJobs candJ = some [1] ∧
    (∃ j ∈ jobsC.filter (fun j => j.status == "active"),
      (jobEmbedBad j).length ≠ ([1] : List ℚ).length) ∧
    match_inner (some candJ) jobsC jobEmbedBad dotQ evalC (2/10)
      = .error .dimensionMismatch ∧
    match_candidate_to_jobs (some candJ) jobsC jobEmbedBad dotQ evalC (2/10) = [] := by
  have hex : ∃ j ∈ jobsC.filter (fun j => j.status == "active"),
      (jobEmbedBad j).length ≠ ([1] : List ℚ).length := by
    refine ⟨jobA, ?_, ?_⟩
    · with_unfolding_all decide
    · decide
  have h := dimension_mismatch_behaviour candJ jobsC jobEmbedBad dotQ evalC (2/10) [1]
      rfl hex
  exact ⟨rfl, hex, h.1, h.2⟩

/-- Claim C7, counterexample — the claim as stated says a dimension
mismatch surfaces an error to the matcher's caller rather than degrading
to an empty result. On a concrete profile with a 1-dimensional vector and
active jobs whose embeddings are 2-dimensional, the `try` body does end in
the dimension-mismatch error, yet the function's caller receives the plain
empty list — the error is swallowed by the catch-all handler, not
surfaced. -/
theorem dimension_mismatch_cex :
    match_inner (some candJ) jobsC jobEmbedBad dotQ evalC (35/100)
      = .error .dimensionMismatch ∧
    match_candidate_to_jobs (some candJ) jobsC jobEmbedBad dotQ evalC (35/100) = [] := by
  constructor
  · with_unfolding_all rfl
  · with_unfolding_all rfl

/-! Helper lemmas for the cosine round trip. -/

lemma dotl_cons (x y : ℝ) (s t : List ℝ) :
    dotl (x :: s) (y :: t) = x * y + dotl s t := by
  simp [dotl]

lemma dotl_self_nonneg (v : List ℝ) : 0 ≤ dotl v v := by
  induction v with
  | nil => simp [dotl]
  | cons x t ih =>
    rw [dotl_cons]
    exact add_nonneg (mul_self_nonneg x) ih

lemma dotl_self_pos {v : List ℝ} {x : ℝ} (hx : x ∈ v) (h0 : x ≠ 0) : 0 < dotl v v := by
  induction v with
  | nil => cases hx
  | cons y t ih =>
    rw [dotl_cons]
    rcases List.mem_cons.mp hx with rfl | hxt
    · exact add_pos_of_pos_of_nonneg (mul_self_pos.mpr h0) (dotl_self_nonneg t)
    · exact add_pos_of_nonneg_of_pos (mul_self_nonneg y) (ih hxt)

/-- Claim C9 — cosine round trip: with cosine similarity computed as
`dot(a, b) / (‖a‖ * ‖b‖)` exactly as in the Stage-1 gate, every non-zero
vector (a vector with at least one non-zero component) has similarity
exactly 1 with itself over exact arithmetic, since
`‖v‖ * ‖v‖ = dot(v, v)`. -/
theorem cosine_round_trip (v : List ℝ) (x : ℝ) (hx : x ∈ v) (h0 : x ≠ 0) :
    cosineSim v v = 1 := by
  have hp : 0 < dotl v v := dotl_self_pos hx h0
  unfold cosineSim
  rw [Real.mul_self_sqrt hp.le]
  exact div_self hp.ne'

theorem cosine_round_trip_witness :
    (1 : ℝ) ∈ [(1 : ℝ)] ∧ cosineSim [1] [1] = 1 :=
  ⟨by simp, cosine_round_trip [1] 1 (by simp) one_ne_zero⟩

end KongEmail

